import Mathlib

/-!
# Judge service (`judge/main.go`)

A shallow embedding of the Go program `judge/main.go` and of the contracts its
specification states, with the properties checked against them.

* Byte slices are lists of naturals below 256.
* The anonymous `/run` handler is a function from the request to the list of
  effects it performs, in order.
* `main` is a program in a small state monad over the process state
  (default mux, standard logger, calls made so far); the outcome of
  `http.ListenAndServe` is supplied by the environment.
-/

namespace Judge

/-! ## Bytes and strings -/

/-- A Go byte slice: every element is below 256. -/
abbrev Bytes := List Nat

/-- UTF-8 encoding of one code point, as Go stores string contents. -/
def utf8Encode (c : Nat) : Bytes :=
  if c < 0x80 then [c]
  else if c < 0x800 then [0xC0 + c / 0x40, 0x80 + c % 0x40]
  else if c < 0x10000 then [0xE0 + c / 0x1000, 0x80 + c / 0x40 % 0x40, 0x80 + c % 0x40]
  else [0xF0 + c / 0x40000, 0x80 + c / 0x1000 % 0x40, 0x80 + c / 0x40 % 0x40, 0x80 + c % 0x40]

/-- The Go conversion from a string to a byte slice: the UTF-8 bytes of the string. -/
def toBytes (s : String) : Bytes :=
  s.toList.foldr (fun c acc => utf8Encode c.toNat ++ acc) []

/-! ## The HTTP handler -/

/-- The part of an HTTP request a handler can look at. -/
structure Request where
  method : String
  path : String
  header : List (String × String)
  body : Bytes
deriving DecidableEq, Repr

/-- What a handler can do while serving a request, one constructor per kind of action:
calls on the response writer, reads of the request, process creation, file access and
access to package-level state. -/
inductive Effect where
  | write (p : Bytes)
  | writeHeader (statusCode : Nat)
  | setHeader (key value : String)
  | readMethod
  | readPath
  | readHeader (key : String)
  | readBody
  | exec (name : String) (args : List String)
  | fileRead (path : String)
  | fileWrite (path : String)
  | sharedRead (name : String)
  | sharedWrite (name : String)
deriving DecidableEq, Repr

/-- A handler function: given the request, the effects it performs, in order. -/
abbrev HandlerFunc := Request → List Effect

/-- The method `Write` of the response writer: one write of the given bytes. -/
def ResponseWriter.Write (p : Bytes) : List Effect := [Effect.write p]

/-- The string literal passed to the response writer in the handler of `/run`. -/
def runLiteral : String :=
  "\x7b\"status\": \"ok\", \"output\": \"Hello from Go Judge!\"\x7d"

/-- The anonymous function registered for `/run`: a single `Write` of the literal's bytes. -/
def runHandler : HandlerFunc :=
  fun _r => ResponseWriter.Write (toBytes runLiteral)

/-- The bytes a sequence of effects writes to the response body. -/
def written : List Effect → Bytes
  | [] => []
  | Effect.write p :: rest => p ++ written rest
  | _ :: rest => written rest

/-- Whether an effect starts a process (a compiler or the submitted program). -/
def Effect.isExec : Effect → Bool
  | Effect.exec _ _ => true
  | _ => false

/-- Whether an effect is a call on the response writer other than `Write`. -/
def Effect.setsStatusOrHeader : Effect → Bool
  | Effect.writeHeader _ => true
  | Effect.setHeader _ _ => true
  | _ => false

/-- Whether an effect reads the request. -/
def Effect.readsRequest : Effect → Bool
  | Effect.readMethod => true
  | Effect.readPath => true
  | Effect.readHeader _ => true
  | Effect.readBody => true
  | _ => false

/-- Whether an effect touches the filesystem. -/
def Effect.touchesFiles : Effect → Bool
  | Effect.fileRead _ => true
  | Effect.fileWrite _ => true
  | _ => false

/-- Whether an effect reads or writes package-level state. -/
def Effect.touchesShared : Effect → Bool
  | Effect.sharedRead _ => true
  | Effect.sharedWrite _ => true
  | _ => false

/-! ## The process and `main` -/

/-- A call `main` makes on the packages `net/http` and `log`. -/
inductive Call where
  | handleFunc (pattern : String) (handler : HandlerFunc)
  | println (line : String)
  | listenAndServe (addr : String) (handler : Option HandlerFunc)

/-- The state of the process: the routes of the default mux, the lines handed to the
standard logger, and every call made so far, oldest first. -/
structure Process where
  mux : List (String × HandlerFunc)
  logged : List String
  calls : List Call

/-- The process as `main` starts: nothing registered, nothing logged. -/
def Process.start : Process := ⟨[], [], []⟩

/-- The environment decides what `http.ListenAndServe` does for an address: `some err`
when it returns the (always non-nil) error `err`, `none` when it serves and never
returns. -/
structure Env where
  listen : String → Option String

/-- How a run of a Go function ends: it returns a value, it panics, or it is still
inside a call that never returns. -/
inductive Step (α : Type) where
  | ok (a : α) (s : Process)
  | panic (msg : String) (s : Process)
  | block (s : Process)

/-- The final process state of a run. -/
def Step.proc {α : Type} : Step α → Process
  | Step.ok _ s => s
  | Step.panic _ s => s
  | Step.block s => s

/-- Whether the run returned normally. -/
def Step.returned {α : Type} : Step α → Bool
  | Step.ok _ _ => true
  | _ => false

/-- Whether the run panicked. -/
def Step.panicked {α : Type} : Step α → Bool
  | Step.panic _ _ => true
  | _ => false

/-- Go statements: functions from the process state to a step. -/
def GoM (α : Type) : Type := Process → Step α

/-- Sequencing of statements: a panic or a call that never returns ends the run. -/
def GoM.bind {α β : Type} (m : GoM α) (f : α → GoM β) : GoM β :=
  fun s =>
    match m s with
    | Step.ok a s1 => f a s1
    | Step.panic msg s1 => Step.panic msg s1
    | Step.block s1 => Step.block s1

instance : Monad GoM where
  pure a := fun s => Step.ok a s
  bind := GoM.bind

/-- The function `http.HandleFunc`: registers the handler for the pattern on the default
mux; it panics on an empty pattern and on a pattern that is already registered. -/
def http.HandleFunc (pattern : String) (handler : HandlerFunc) : GoM Unit :=
  fun s =>
    let s1 := { s with calls := s.calls ++ [Call.handleFunc pattern handler] }
    if pattern = "" then Step.panic "http: invalid pattern" s1
    else if s.mux.any (fun e => e.1 == pattern) then
      Step.panic "http: multiple registrations" s1
    else Step.ok () { s1 with mux := s1.mux ++ [(pattern, handler)] }

/-- The function `log.Println` with one string operand: hands the line to the standard
logger (the logger adds its timestamp and the newline). -/
def log.Println (line : String) : GoM Unit :=
  fun s => Step.ok () { s with logged := s.logged ++ [line],
                               calls := s.calls ++ [Call.println line] }

/-- The function `http.ListenAndServe`: returns the error the environment gives for the
address, or never returns. -/
def http.ListenAndServe (env : Env) (addr : String) (handler : Option HandlerFunc) :
    GoM String :=
  fun s =>
    let s1 := { s with calls := s.calls ++ [Call.listenAndServe addr handler] }
    match env.listen addr with
    | some err => Step.ok err s1
    | none => Step.block s1

/-- The function `main` of `judge/main.go`. The value of `http.ListenAndServe` is not
bound to anything. -/
def main (env : Env) : GoM Unit := do
  http.HandleFunc "/run" runHandler
  log.Println "Judge service running on :8081"
  let _ ← http.ListenAndServe env ":8081" none
  pure ()

/-- The handler the default mux holds for a pattern. -/
def Process.handlerFor (s : Process) (pattern : String) : Option HandlerFunc :=
  (s.mux.find? (fun e => e.1 == pattern)).map (fun e => e.2)

/-- The patterns registered on the default mux, in registration order. -/
def Process.patterns (s : Process) : List String := s.mux.map (fun e => e.1)

/-! ## JSON texts

The grammar of RFC 8259, as a parser over bytes. It is what "well-formed JSON" means
below. String values are kept as the UTF-8 bytes they denote, numbers as their lexeme;
bytes of 0x80 and above inside a string are taken as they are. -/

/-- A JSON value. -/
inductive JSON where
  | null
  | bool (b : Bool)
  | num (lexeme : Bytes)
  | str (s : Bytes)
  | arr (items : List JSON)
  | obj (members : List (Bytes × JSON))

/-- JSON whitespace: space, tab, line feed, carriage return. -/
def isWs (b : Nat) : Bool := b = 32 || b = 9 || b = 10 || b = 13

/-- Drops leading JSON whitespace. -/
def skipWs : Bytes → Bytes
  | [] => []
  | b :: rest => if isWs b then skipWs rest else b :: rest

/-- The value of a hexadecimal digit. -/
def hexVal (b : Nat) : Option Nat :=
  if 48 ≤ b ∧ b ≤ 57 then some (b - 48)
  else if 65 ≤ b ∧ b ≤ 70 then some (b - 55)
  else if 97 ≤ b ∧ b ≤ 102 then some (b - 87)
  else none

/-- Reads four hexadecimal digits. -/
def parseHex4 : Bytes → Option (Nat × Bytes)
  | a :: b :: c :: d :: rest =>
    match hexVal a, hexVal b, hexVal c, hexVal d with
    | some x, some y, some z, some w => some (((x * 16 + y) * 16 + z) * 16 + w, rest)
    | _, _, _, _ => none
  | _ => none

/-- Reads a low surrogate escape after a high surrogate and gives the code point of
the pair. -/
def parseLowSurrogate (hi : Nat) : Bytes → Option (Nat × Bytes)
  | b :: u :: rest =>
    if b = 92 ∧ u = 117 then
      match parseHex4 rest with
      | some (lo, rest1) =>
        if 0xDC00 ≤ lo ∧ lo < 0xE000 then
          some (0x10000 + (hi - 0xD800) * 0x400 + (lo - 0xDC00), rest1)
        else none
      | none => none
    else none
  | _ => none

/-- Reads what follows a backslash inside a string and gives the bytes it denotes. -/
def unescape : Bytes → Option (Bytes × Bytes)
  | [] => none
  | e :: rest =>
    if e = 34 then some ([34], rest)
    else if e = 92 then some ([92], rest)
    else if e = 47 then some ([47], rest)
    else if e = 98 then some ([8], rest)
    else if e = 102 then some ([12], rest)
    else if e = 110 then some ([10], rest)
    else if e = 114 then some ([13], rest)
    else if e = 116 then some ([9], rest)
    else if e = 117 then
      match parseHex4 rest with
      | none => none
      | some (u, rest1) =>
        if 0xD800 ≤ u ∧ u < 0xDC00 then
          match parseLowSurrogate u rest1 with
          | some (cp, rest2) => some (utf8Encode cp, rest2)
          | none => none
        else if 0xDC00 ≤ u ∧ u < 0xE000 then none
        else some (utf8Encode u, rest1)
    else none

/-- Reads a string after its opening quotation mark, up to and including the closing
one; the accumulator holds the bytes read so far. -/
def parseString : Nat → Bytes → Bytes → Option (Bytes × Bytes)
  | 0, _, _ => none
  | _ + 1, [], _ => none
  | n + 1, c :: rest, acc =>
    if c = 34 then some (acc, rest)
    else if c = 92 then
      match unescape rest with
      | some (d, rest1) => parseString n rest1 (acc ++ d)
      | none => none
    else if c < 32 then none
    else parseString n rest (acc ++ [c])

/-- Whether a byte is a decimal digit. -/
def isDigit (b : Nat) : Bool := decide (48 ≤ b) && decide (b ≤ 57)

/-- Splits off the longest run of decimal digits. -/
def takeDigits : Bytes → Bytes × Bytes
  | [] => ([], [])
  | b :: rest =>
    if isDigit b then ((takeDigits rest).1.cons b, (takeDigits rest).2) else ([], b :: rest)

/-- The integer part of a number: a single zero, or a non-zero digit and more digits. -/
def parseInt : Bytes → Option (Bytes × Bytes)
  | [] => none
  | b :: rest =>
    if b = 48 then some ([48], rest)
    else if isDigit b then some (b :: (takeDigits rest).1, (takeDigits rest).2)
    else none

/-- The optional fraction part of a number. -/
def parseFrac : Bytes → Option (Bytes × Bytes)
  | [] => some ([], [])
  | b :: rest =>
    if b = 46 then
      match takeDigits rest with
      | ([], _) => none
      | (ds, rest1) => some (46 :: ds, rest1)
    else some ([], b :: rest)

/-- The digits of an exponent, after the letter and the optional sign. -/
def parseExpDigits (lead : Bytes) (input : Bytes) : Option (Bytes × Bytes) :=
  match takeDigits input with
  | ([], _) => none
  | (ds, rest) => some (lead ++ ds, rest)

/-- The optional exponent part of a number. -/
def parseExp : Bytes → Option (Bytes × Bytes)
  | [] => some ([], [])
  | b :: rest =>
    if b = 101 ∨ b = 69 then
      match rest with
      | [] => none
      | sgn :: rest1 =>
        if sgn = 43 ∨ sgn = 45 then parseExpDigits [b, sgn] rest1
        else parseExpDigits [b] (sgn :: rest1)
    else some ([], b :: rest)

/-- Reads a number and gives its lexeme. -/
def parseNumber (input : Bytes) : Option (Bytes × Bytes) :=
  let signed : Bytes × Bytes :=
    match input with
    | b :: rest => if b = 45 then ([45], rest) else ([], input)
    | [] => ([], [])
  match parseInt signed.2 with
  | none => none
  | some (ip, rest1) =>
    match parseFrac rest1 with
    | none => none
    | some (fp, rest2) =>
      match parseExp rest2 with
      | none => none
      | some (ep, rest3) => some (signed.1 ++ ip ++ fp ++ ep, rest3)

/-- Reads a fixed word such as null, true or false. -/
def expectWord (word : Bytes) (input : Bytes) : Option Bytes :=
  if input.take word.length = word then some (input.drop word.length) else none

/-- Reads the elements of an array after the first one has been announced: a value,
then a comma and more, or the closing bracket. -/
def parseItems (value : Bytes → Option (JSON × Bytes)) :
    Nat → Bytes → List JSON → Option (JSON × Bytes)
  | 0, _, _ => none
  | n + 1, input, acc =>
    match value input with
    | none => none
    | some (v, rest) =>
      match skipWs rest with
      | [] => none
      | c :: rest1 =>
        if c = 44 then parseItems value n rest1 (acc ++ [v])
        else if c = 93 then some (JSON.arr (acc ++ [v]), rest1)
        else none

/-- Reads the members of an object: a string, a colon, a value, then a comma and more
members, or the closing brace. -/
def parseMembers (value : Bytes → Option (JSON × Bytes)) :
    Nat → Bytes → List (Bytes × JSON) → Option (JSON × Bytes)
  | 0, _, _ => none
  | n + 1, input, acc =>
    match skipWs input with
    | [] => none
    | q :: rest =>
      if q = 34 then
        match parseString (rest.length + 1) rest [] with
        | none => none
        | some (key, rest1) =>
          match skipWs rest1 with
          | [] => none
          | colon :: rest2 =>
            if colon = 58 then
              match value rest2 with
              | none => none
              | some (v, rest3) =>
                match skipWs rest3 with
                | [] => none
                | c :: rest4 =>
                  if c = 44 then parseMembers value n rest4 (acc ++ [(key, v)])
                  else if c = 125 then some (JSON.obj (acc ++ [(key, v)]), rest4)
                  else none
            else none
      else none

/-- Reads one JSON value, with leading whitespace; the fuel bounds the nesting depth. -/
def parseValue : Nat → Bytes → Option (JSON × Bytes)
  | 0, _ => none
  | fuel + 1, input =>
    match skipWs input with
    | [] => none
    | c :: rest =>
      if c = 123 then
        match skipWs rest with
        | [] => none
        | d :: rest1 =>
          if d = 125 then some (JSON.obj [], rest1)
          else parseMembers (parseValue fuel) (rest.length + 1) rest []
      else if c = 91 then
        match skipWs rest with
        | [] => none
        | d :: rest1 =>
          if d = 93 then some (JSON.arr [], rest1)
          else parseItems (parseValue fuel) (rest.length + 1) rest []
      else if c = 34 then
        (parseString (rest.length + 1) rest []).map (fun r => (JSON.str r.1, r.2))
      else if c = 110 then (expectWord [117, 108, 108] rest).map (fun r => (JSON.null, r))
      else if c = 116 then
        (expectWord [114, 117, 101] rest).map (fun r => (JSON.bool true, r))
      else if c = 102 then
        (expectWord [97, 108, 115, 101] rest).map (fun r => (JSON.bool false, r))
      else (parseNumber (c :: rest)).map (fun r => (JSON.num r.1, r.2))

/-- Parses a whole JSON text: one value, with only whitespace around it. -/
def parseJSON (input : Bytes) : Option JSON :=
  match parseValue (input.length + 1) input with
  | none => none
  | some (v, rest) => if skipWs rest = [] then some v else none

/-- The names of the members of a JSON object (none for other values). -/
def JSON.memberNames : JSON → List Bytes
  | JSON.obj members => members.map (fun m => m.1)
  | _ => []

/-! ## The verdict evaluator of the specification

`judge/main.go` has no verdict evaluator; the definitions of this section follow
sections 3 and 4.4 of the specification. -/

/-- Modelled from the spec: the enumeration terminationReason of ExecutionResult
(section 3); `judge/main.go` declares no such type. -/
inductive TerminationReason where
  | Completed
  | TimeLimitExceeded
  | MemoryLimitExceeded
  | OutputLimitExceeded
  | Killed
deriving DecidableEq, Repr

/-- Modelled from the spec: the record ExecutionResult (section 3); `judge/main.go`
declares no such type. -/
structure ExecutionResult where
  exitCode : Int
  stdout : Bytes
  stderr : Bytes
  cpuTimeUsedMs : Nat
  wallTimeUsedMs : Nat
  peakMemoryBytes : Nat
  terminationReason : TerminationReason
deriving DecidableEq, Repr

/-- Modelled from the spec: the enumeration outcome of Verdict (section 3);
`judge/main.go` declares no such type. -/
inductive Outcome where
  | Accepted
  | WrongOutput
  | CompileError
  | RuntimeError
  | TimeLimitExceeded
  | MemoryLimitExceeded
  | OutputLimitExceeded
  | InternalError
deriving DecidableEq, Repr

/-- Modelled from the spec: the enumeration comparisonMode of SubmissionRequest
(section 3); `judge/main.go` declares no such type. -/
inductive ComparisonMode where
  | Exact
  | TrimmedWhitespace
  | Custom
deriving DecidableEq, Repr

/-- Whitespace that may trail a line: space, tab, carriage return, vertical tab,
form feed. -/
def isTrailingSpace (b : Nat) : Bool := b = 32 || b = 9 || b = 13 || b = 11 || b = 12

/-- Splits bytes into lines at every line feed. -/
def splitLines : Bytes → List Bytes
  | [] => [[]]
  | b :: rest =>
    if b = 10 then [] :: splitLines rest
    else
      match splitLines rest with
      | [] => [[b]]
      | line :: more => (b :: line) :: more

/-- Removes the whitespace at the end of one line. -/
def stripLine (line : Bytes) : Bytes := (line.reverse.dropWhile isTrailingSpace).reverse

/-- Removes the blank lines at the end of a text. -/
def dropBlankTail (lines : List Bytes) : List Bytes :=
  (lines.reverse.dropWhile (fun l => l.isEmpty)).reverse

/-- Modelled from the spec: the normal form that TrimmedWhitespace compares (section 4.4:
"stripping trailing whitespace per line and trailing blank lines"); absent from
`judge/main.go`. -/
def trimmed (text : Bytes) : List Bytes := dropBlankTail ((splitLines text).map stripLine)

/-- Modelled from the spec: the comparison of stdout against expectedOutput per
comparisonMode (section 4.4), absent from `judge/main.go`. Exact is byte identity,
TrimmedWhitespace compares the trimmed forms, Custom delegates to the externally supplied
comparator. -/
def compareOutput (custom : Bytes → Bytes → Bool) (stdout expectedOutput : Bytes) :
    ComparisonMode → Bool
  | ComparisonMode.Exact => decide (stdout = expectedOutput)
  | ComparisonMode.TrimmedWhitespace => decide (trimmed stdout = trimmed expectedOutput)
  | ComparisonMode.Custom => custom stdout expectedOutput

/-- Modelled from the spec: the function Evaluate of the Verdict Evaluator (section 4.4),
absent from `judge/main.go`. A terminationReason other than Completed maps directly to
an outcome; Completed with a non-zero exit code is RuntimeError; Completed with exit code
zero is Accepted when the comparison succeeds and WrongOutput otherwise. -/
def Evaluate (custom : Bytes → Bytes → Bool) (executionResult : ExecutionResult)
    (expectedOutput : Bytes) (comparisonMode : ComparisonMode) : Outcome :=
  match executionResult.terminationReason with
  | TerminationReason.TimeLimitExceeded => Outcome.TimeLimitExceeded
  | TerminationReason.MemoryLimitExceeded => Outcome.MemoryLimitExceeded
  | TerminationReason.OutputLimitExceeded => Outcome.OutputLimitExceeded
  | TerminationReason.Killed => Outcome.InternalError
  | TerminationReason.Completed =>
    if executionResult.exitCode ≠ 0 then Outcome.RuntimeError
    else if compareOutput custom executionResult.stdout expectedOutput comparisonMode then
      Outcome.Accepted
    else Outcome.WrongOutput

/-- The port an address or a log line names: what follows its last colon. -/
def portOf (s : String) : String :=
  String.mk (s.toList.reverse.takeWhile (fun c => c != ':')).reverse

/-- The process state `main` leaves behind once `http.ListenAndServe` has been called. -/
def Process.afterMain : Process :=
  ⟨[("/run", runHandler)],
   ["Judge service running on :8081"],
   [Call.handleFunc "/run" runHandler,
    Call.println "Judge service running on :8081",
    Call.listenAndServe ":8081" none]⟩

/-- A submission whose source does not compile. -/
def brokenSubmission : Request :=
  ⟨"POST", "/run", [("Content-Type", "text/plain")], toBytes "int main( \x7b"⟩

/-- A submission whose source compiles and prints a line. -/
def helloSubmission : Request :=
  ⟨"POST", "/run", [("Content-Type", "text/plain")],
   toBytes "#include <stdio.h>\nint main() \x7b puts(\"hi\"); return 0; \x7d"⟩

/-- An execution result of a run that was killed; every other field is arbitrary. -/
def killedResult : ExecutionResult :=
  ⟨137, toBytes "half a line", [], 12, 40, 4096, TerminationReason.Killed⟩

/-- An execution result of a run that completed with exit code zero. -/
def completedResult : ExecutionResult :=
  ⟨0, toBytes "5050\n", [], 3, 5, 2048, TerminationReason.Completed⟩

/-- An environment in which port 8081 is already in use. -/
def portInUse : Env :=
  ⟨fun _ => some "listen tcp :8081: bind: address already in use"⟩

/-! ## Lemmas -/

theorem toBytes_runLiteral :
    toBytes runLiteral =
      [123, 34, 115, 116, 97, 116, 117, 115, 34, 58, 32, 34, 111, 107, 34, 44, 32, 34,
       111, 117, 116, 112, 117, 116, 34, 58, 32, 34, 72, 101, 108, 108, 111, 32, 102,
       114, 111, 109, 32, 71, 111, 32, 74, 117, 100, 103, 101, 33, 34, 125] := by
  decide

theorem runHandler_eq (r : Request) : runHandler r = [Effect.write (toBytes runLiteral)] :=
  rfl

theorem written_runHandler (r : Request) : written (runHandler r) = toBytes runLiteral := by
  simp [runHandler, ResponseWriter.Write, written]

theorem parseValue_runLiteral :
    parseValue ((toBytes runLiteral).length + 1) (toBytes runLiteral) =
      some (JSON.obj [(toBytes "status", JSON.str (toBytes "ok")),
        (toBytes "output", JSON.str (toBytes "Hello from Go Judge!"))], []) := by
  rfl

theorem main_proc (env : Env) : (main env Process.start).proc = Process.afterMain := by
  cases h : env.listen ":8081" <;>
    simp [main, bind, GoM.bind, http.HandleFunc, log.Println, http.ListenAndServe,
      Process.start, Process.afterMain, Step.proc, h, pure]

theorem main_returns (env : Env) (err : String) (h : env.listen ":8081" = some err) :
    main env Process.start = Step.ok () Process.afterMain := by
  simp [main, bind, GoM.bind, http.HandleFunc, log.Println, http.ListenAndServe,
    Process.start, Process.afterMain, h, pure]

theorem main_serves (env : Env) (h : env.listen ":8081" = none) :
    main env Process.start = Step.block Process.afterMain := by
  simp [main, bind, GoM.bind, http.HandleFunc, log.Println, http.ListenAndServe,
    Process.start, Process.afterMain, h]

/-- The parser rejects a text with anything but whitespace after the value, a number
with a leading zero, and a trailing comma. -/
theorem parseJSON_rejects :
    parseJSON (toBytes "\x7b\"a\": 1\x7d x") = none ∧
    parseJSON (toBytes "01") = none ∧
    parseJSON (toBytes "\x7b\"a\": 1,\x7d") = none ∧
    parseJSON (toBytes "\x7b\"a\" 1\x7d") = none ∧
    parseJSON (toBytes "\x7b\"a\": \"b\x7d") = none := by
  refine ⟨?_, ?_, ?_, ?_, ?_⟩ <;> rfl

/-- The parser accepts nested arrays, numbers, escapes and the three words. -/
theorem parseJSON_accepts :
    parseJSON (toBytes "[1, -2.5e+3, true, null, \"a\\n\\u00e9\", \x7b\x7d, [[false]]] ") =
      some (JSON.arr [JSON.num [49], JSON.num (toBytes "-2.5e+3"), JSON.bool true,
        JSON.null, JSON.str [97, 10, 195, 169], JSON.obj [],
        JSON.arr [JSON.arr [JSON.bool false]]]) := by
  rfl


/-! ## The `/run` handler -/

/-- C1: for every outcome of listening and every request, the handler that `main`
registers for `/run` writes exactly the 50 bytes of
`{"status": "ok", "output": "Hello from Go Judge!"}` to the response, so any two
requests receive byte-identical bodies. -/
theorem run_response_fixed (env : Env) (r r2 : Request) :
    ((main env Process.start).proc.handlerFor "/run").map (fun h => written (h r)) =
      some [123, 34, 115, 116, 97, 116, 117, 115, 34, 58, 32, 34, 111, 107, 34, 44, 32,
        34, 111, 117, 116, 112, 117, 116, 34, 58, 32, 34, 72, 101, 108, 108, 111, 32,
        102, 114, 111, 109, 32, 71, 111, 32, 74, 117, 100, 103, 101, 33, 34, 125] ∧
    (written (runHandler r)).length = 50 ∧
    written (runHandler r) = written (runHandler r2) := by
  refine ⟨?_, ?_, ?_⟩
  · rw [main_proc]
    simp only [Process.handlerFor, Process.afterMain, List.find?, beq_self_eq_true,
      Option.map_some', written_runHandler, toBytes_runLiteral]
  · rw [written_runHandler, toBytes_runLiteral]
    rfl
  · rw [written_runHandler, written_runHandler]

/-- C2: for every request the effects of the `/run` handler are one `Write` on the
response writer and nothing else: no read of the request, no process, no file access,
no status code or header, no access to shared state; and the effects are the same for
every request. -/
theorem run_handler_only_writes (r r2 : Request) :
    runHandler r = [Effect.write (toBytes runLiteral)] ∧
    (runHandler r).length = 1 ∧
    (∀ e ∈ runHandler r,
      e.readsRequest = false ∧ e.isExec = false ∧ e.touchesFiles = false ∧
      e.setsStatusOrHeader = false ∧ e.touchesShared = false) ∧
    runHandler r2 = runHandler r := by
  refine ⟨rfl, rfl, ?_, rfl⟩
  intro e he
  rw [runHandler_eq, List.mem_singleton] at he
  subst he
  exact ⟨rfl, rfl, rfl, rfl, rfl⟩

/-- C3, counterexample: for a submission whose source does not compile, the handler
starts no process, so nothing is compiled or executed; the response is an object whose
only members are status and output, so it carries no captured stderr and no resource
usage; and it is byte for byte the response given to a submission that compiles. -/
theorem broken_submission_not_judged :
    (¬ ∃ e ∈ runHandler brokenSubmission, e.isExec = true) ∧
    (parseJSON (written (runHandler brokenSubmission))).map JSON.memberNames =
      some [toBytes "status", toBytes "output"] ∧
    brokenSubmission ≠ helloSubmission ∧
    written (runHandler brokenSubmission) = written (runHandler helloSubmission) := by
  refine ⟨by decide, ?_, by decide, rfl⟩
  rfl

/-- C3, amended: for every submission the service starts no process, and the response
is the fixed object with the two members status "ok" and output "Hello from Go Judge!",
whatever the submission is. -/
theorem every_submission_gets_stub (r : Request) :
    (runHandler r).any Effect.isExec = false ∧
    parseJSON (written (runHandler r)) =
      some (JSON.obj [(toBytes "status", JSON.str (toBytes "ok")),
        (toBytes "output", JSON.str (toBytes "Hello from Go Judge!"))]) := by
  refine ⟨rfl, ?_⟩
  rw [written_runHandler]
  rfl

/-- C7: the body written by the `/run` handler is a well-formed JSON text: it parses
as an object with exactly the two members status, a string with value "ok", and output,
a string with value "Hello from Go Judge!", and the parse ends at the last byte, the
closing brace. -/
theorem run_body_well_formed (r : Request) :
    parseValue ((written (runHandler r)).length + 1) (written (runHandler r)) =
      some (JSON.obj [(toBytes "status", JSON.str (toBytes "ok")),
        (toBytes "output", JSON.str (toBytes "Hello from Go Judge!"))], []) ∧
    (written (runHandler r)).getLast? = some 125 ∧
    ((parseJSON (written (runHandler r))).map JSON.memberNames).map List.length =
      some 2 := by
  rw [written_runHandler]
  exact ⟨parseValue_runLiteral, by decide, rfl⟩

/-! ## The verdict evaluator -/

/-- C4: when terminationReason is not Completed, Evaluate maps it directly:
TimeLimitExceeded, MemoryLimitExceeded and OutputLimitExceeded to the outcome of the same
name and Killed to InternalError; the outcome is the same for every other execution
result with that terminationReason, every expected output, every comparison mode and
every comparator. -/
theorem Evaluate_not_completed (custom : Bytes → Bytes → Bool) (res : ExecutionResult)
    (expectedOutput : Bytes) (mode : ComparisonMode)
    (h : res.terminationReason ≠ TerminationReason.Completed) :
    (res.terminationReason = TerminationReason.TimeLimitExceeded →
      Evaluate custom res expectedOutput mode = Outcome.TimeLimitExceeded) ∧
    (res.terminationReason = TerminationReason.MemoryLimitExceeded →
      Evaluate custom res expectedOutput mode = Outcome.MemoryLimitExceeded) ∧
    (res.terminationReason = TerminationReason.OutputLimitExceeded →
      Evaluate custom res expectedOutput mode = Outcome.OutputLimitExceeded) ∧
    (res.terminationReason = TerminationReason.Killed →
      Evaluate custom res expectedOutput mode = Outcome.InternalError) ∧
    (∀ (custom2 : Bytes → Bytes → Bool) (res2 : ExecutionResult) (expected2 : Bytes)
        (mode2 : ComparisonMode),
      res2.terminationReason = res.terminationReason →
      Evaluate custom2 res2 expected2 mode2 = Evaluate custom res expectedOutput mode) := by
  refine ⟨?_, ?_, ?_, ?_, ?_⟩
  · intro ht; simp [Evaluate, ht]
  · intro ht; simp [Evaluate, ht]
  · intro ht; simp [Evaluate, ht]
  · intro ht; simp [Evaluate, ht]
  · intro custom2 res2 expected2 mode2 ht
    cases hr : res.terminationReason
    · exact absurd hr h
    all_goals simp [Evaluate, ht, hr]

/-- C4, witness: a killed run with exit code 137 and some output is InternalError under
every comparison mode. -/
theorem Evaluate_not_completed_witness :
    killedResult.terminationReason ≠ TerminationReason.Completed ∧
    Evaluate (fun _ _ => true) killedResult (toBytes "half a line") ComparisonMode.Exact =
      Outcome.InternalError ∧
    Evaluate (fun _ _ => false) { killedResult with exitCode := 0, stdout := [] } []
      ComparisonMode.Custom =
      Evaluate (fun _ _ => true) killedResult (toBytes "half a line") ComparisonMode.Exact :=
  ⟨by decide,
   (Evaluate_not_completed (fun _ _ => true) killedResult (toBytes "half a line")
      ComparisonMode.Exact (by decide)).2.2.2.1 rfl,
   (Evaluate_not_completed (fun _ _ => true) killedResult (toBytes "half a line")
      ComparisonMode.Exact (by decide)).2.2.2.2 _ _ _ _ rfl⟩

/-- C5: for every byte string s and every execution result with terminationReason
Completed, exit code zero and stdout s, Evaluate with expected output s under Exact
yields Accepted. -/
theorem Evaluate_exact_self (custom : Bytes → Bytes → Bool) (s : Bytes)
    (res : ExecutionResult) (hc : res.terminationReason = TerminationReason.Completed)
    (he : res.exitCode = 0) (hs : res.stdout = s) :
    Evaluate custom res s ComparisonMode.Exact = Outcome.Accepted := by
  simp [Evaluate, compareOutput, hc, he, hs]

/-- C5, witness: the completed run that printed "5050" and a line feed, compared with
its own output. -/
theorem Evaluate_exact_self_witness :
    completedResult.terminationReason = TerminationReason.Completed ∧
    completedResult.exitCode = 0 ∧
    Evaluate (fun _ _ => false) completedResult (toBytes "5050\n") ComparisonMode.Exact =
      Outcome.Accepted :=
  ⟨rfl, rfl, Evaluate_exact_self (fun _ _ => false) (toBytes "5050\n") completedResult
    rfl rfl rfl⟩

/-! ## Start-up -/

/-- C8: whatever `http.ListenAndServe` does, the line "Judge service running on :8081"
is logged, once, by the call right before the call of `http.ListenAndServe`, and `main`
does not panic; and for every error `http.ListenAndServe` returns, `main` returns
normally in a state that does not depend on the error, with nothing logged but that
line. -/
theorem main_ignores_listen_error (env : Env) :
    (main env Process.start).proc.logged = ["Judge service running on :8081"] ∧
    (∃ before, (main env Process.start).proc.calls =
      before ++ [Call.println "Judge service running on :8081",
        Call.listenAndServe ":8081" none]) ∧
    (main env Process.start).panicked = false ∧
    (∀ err : String, env.listen ":8081" = some err →
      main env Process.start = Step.ok () Process.afterMain ∧
      (main env Process.start).returned = true) := by
  refine ⟨?_, ?_, ?_, ?_⟩
  · rw [main_proc]; rfl
  · rw [main_proc]; exact ⟨[Call.handleFunc "/run" runHandler], rfl⟩
  · cases h : env.listen ":8081" with
    | none => rw [main_serves env h]; rfl
    | some err => rw [main_returns env err h]; rfl
  · intro err h
    rw [main_returns env err h]
    exact ⟨rfl, rfl⟩

/-- C8, witness: with port 8081 already in use, `main` returns normally and the only
thing logged is the line that says the service is running. -/
theorem main_ignores_listen_error_witness :
    portInUse.listen ":8081" = some "listen tcp :8081: bind: address already in use" ∧
    main portInUse Process.start = Step.ok () Process.afterMain ∧
    (main portInUse Process.start).returned = true ∧
    Process.afterMain.logged = ["Judge service running on :8081"] :=
  ⟨rfl,
   ((main_ignores_listen_error portInUse).2.2.2 _ rfl).1,
   ((main_ignores_listen_error portInUse).2.2.2 _ rfl).2,
   rfl⟩

/-- C9: the calls of `main` are, in this order and no others: `http.HandleFunc` with
the pattern "/run", `log.Println` with one line, `http.ListenAndServe` with the address
":8081" and a nil handler; "/run" is the only pattern on the default mux; and the port
in the logged line is the port of the address, 8081. -/
theorem main_startup_sequence (env : Env) :
    (main env Process.start).proc.calls =
      [Call.handleFunc "/run" runHandler,
       Call.println "Judge service running on :8081",
       Call.listenAndServe ":8081" none] ∧
    (main env Process.start).proc.patterns = ["/run"] ∧
    (main env Process.start).proc.logged.map portOf = [portOf ":8081"] ∧
    portOf ":8081" = "8081" := by
  rw [main_proc]
  exact ⟨rfl, rfl, by decide, by decide⟩

end Judge
